import Mathlib

/-!
Verification of the nannou real-time audio output stream core
(`src/audio/stream/output.rs`).

The development shallowly embeds the audio stream pipeline:

* `Requester` — the rebuffering engine that decouples the hardware
  callback buffer size from the user-requested logical buffer size
  (the implementation lives outside the provided sources, so its
  behaviour is modelled from the specification, section 4.4);
* `process_pending_updates`, `render_step`, `proc_output` — the
  processing closure built in `Builder::build` (output.rs lines
  181-243), with the mutex lock outcomes made explicit booleans and a
  `take().unwrap()` panic modelled as `Option.none`;
* `Builder` setters and `build` — configuration validation, device
  resolution, format negotiation and registration effects
  (output.rs lines 95-263).

Machine integers do not overflow in any of the embedded code paths
(lengths and counts are `Nat` in the model, `usize` in the source).
-/
set_option autoImplicit false

namespace NannouAudio

variable {M S O U : Type}

/-- The rebuffering engine state.  Modelled from the spec (section 4.4):
an internal accumulation buffer sized to the logical frame count times
channel count, plus a cursor marking how much of the current logical
buffer has already been consumed.  The implementation of
`audio::requester::Requester` is not among the provided sources; only
its call sites in `output.rs` are. -/
structure Requester (S : Type) where
  buffer : List S
  cursor : Nat
  deriving DecidableEq

/-- Modelled from the spec: a fresh requester holds an equilibrium-filled
logical buffer of `frames_per_buffer * num_channels` samples, marked
fully consumed so that the first fill request invokes the user render
function rather than emitting stale silence. -/
def Requester.new (frames_per_buffer num_channels : Nat) (eq : S) : Requester S :=
  { buffer := List.replicate (frames_per_buffer * num_channels) eq
    cursor := frames_per_buffer * num_channels }

/-- Result of one `Requester.fill_buffer` call: final requester state,
final model, the samples copied into the hardware buffer, and the trace
of logical buffers produced by the user render function (in invocation
order). -/
structure FillResult (M S : Type) where
  req : Requester S
  model : M
  out : List S
  renders : List (List S)
  deriving DecidableEq

/-- Modelled from the spec (section 4.4, output algorithm): while the
hardware buffer has unfilled capacity, (a) if the logical buffer is
fully consumed, invoke the user render function once on a freshly
zeroed logical buffer of `lc = frames_per_buffer * channels` samples
and reset the cursor, then (b) copy `min(remaining hardware capacity,
remaining logical samples)` samples and advance the cursor.  The
degenerate empty-logical-buffer case returns early (unreachable when
`0 < lc` and the render function preserves buffer length). -/
def Requester.fill_buffer (render : M → List S → M × List S) (eq : S) (lc : Nat) :
    Requester S → M → Nat → FillResult M S
  | r, m, n =>
    if hn : n = 0 then ⟨r, m, [], []⟩
    else if hc : r.buffer.length ≤ r.cursor then
      -- logical buffer fully consumed: render a fresh one
      let p := render m (List.replicate lc eq)
      if hz : p.2.length = 0 then ⟨⟨p.2, 0⟩, p.1, [], [p.2]⟩
      else
        let res := Requester.fill_buffer render eq lc ⟨p.2, min n p.2.length⟩ p.1
          (n - min n p.2.length)
        ⟨res.req, res.model, p.2.take (min n p.2.length) ++ res.out, p.2 :: res.renders⟩
    else
      let res := Requester.fill_buffer render eq lc
        ⟨r.buffer, r.cursor + min n (r.buffer.length - r.cursor)⟩ m
        (n - min n (r.buffer.length - r.cursor))
      ⟨res.req, res.model,
        (r.buffer.drop r.cursor).take (min n (r.buffer.length - r.cursor)) ++ res.out,
        res.renders⟩
termination_by r m n => n
decreasing_by
  all_goals simp_wf
  · exact ⟨Nat.pos_of_ne_zero hn, Nat.pos_of_ne_zero hz⟩
  · exact ⟨Nat.pos_of_ne_zero hn, by omega⟩

/-- The chain of user render invocations: starting from model `m`,
invoke the render function `k` times, each time on a fresh logical
buffer of `lc` equilibrium samples, threading the model through.
Returns the final model and the produced logical buffers in order. -/
def renderChain (render : M → List S → M × List S) (eq : S) (lc : Nat) :
    M → Nat → M × List (List S)
  | m, 0 => (m, [])
  | m, k + 1 =>
    let p := render m (List.replicate lc eq)
    let res := renderChain render eq lc p.1 k
    (res.1, p.2 :: res.2)

/-- The fold the audio callback performs when applying drained updates:
`for mut update in pending_updates.drain(..) { update(&mut model); }`
(output.rs lines 192-194). -/
def applyUpdates (applyU : U → M → M) (m : M) (us : List U) : M :=
  us.foldl (fun acc u => applyU u acc) m

/-- Result of one drain point: the pending-updates buffer afterwards, the
shared model slot afterwards, and the updates applied (in order) at this
drain point. -/
structure DrainResult (M U : Type) where
  pending : List U
  slot : Option M
  applied : List U
  deriving DecidableEq

/-- The `process_pending_updates!` macro of `proc_output` (output.rs lines
183-199): extend the pending buffer with everything currently in the
channel (`update_rx.try_iter()`, here `incoming`); if the buffer is
non-empty and the model mutex is acquired (`lockOk`), take the model out
of the slot (panicking — `none` — if the slot is empty), apply all
pending updates in FIFO order, and put the model back.  If the lock is
not acquired the pending updates are retained. -/
def process_pending_updates (applyU : U → M → M) (incoming : List U) (lockOk : Bool)
    (pending : List U) (slot : Option M) : Option (DrainResult M U) :=
  let pending1 := pending ++ incoming
  if pending1.isEmpty then some ⟨pending1, slot, []⟩
  else if lockOk then
    match slot with
    | none => none
    | some m => some ⟨[], some (applyUpdates applyU m pending1), pending1⟩
  else some ⟨pending1, slot, []⟩

/-- The state the processing closure carries across hardware callback
invocations: the `pending_updates` vector, the shared `Option<Model>`
mutex slot, and the requester (output.rs lines 161-178). -/
structure CallbackState (M S U : Type) where
  pending : List U
  slot : Option M
  req : Requester S
  deriving DecidableEq

/-- One hardware callback invocation, as seen by the closure: the updates
sitting in the channel when the callback starts (`inc1`), the updates
arriving while it renders (`inc2`, visible to the second drain point),
the outcome of the three mutex acquisitions (entry drain, render, exit
drain), and the hardware buffer length for this invocation. -/
structure Invocation (U : Type) where
  inc1 : List U
  inc2 : List U
  lock1 : Bool
  lockR : Bool
  lock2 : Bool
  outLen : Nat
  deriving DecidableEq

/-- Result of the render section (output.rs lines 209-216). -/
structure RenderStep (M S : Type) where
  req : Requester S
  slot : Option M
  samples : List S
  renders : List (List S)
  deriving DecidableEq

/-- The render section of `proc_output` (output.rs lines 209-216):
`samples` is cleared and resized to the hardware buffer length filled
with equilibrium; if the model mutex is acquired, the model is taken out
of the slot (panic — `none` — if empty), the requester fills `samples`,
and the model is restored.  If the lock is not acquired, `samples` stays
all-equilibrium. -/
def render_step (render : M → List S → M × List S) (eq : S) (lc : Nat)
    (req : Requester S) (slot : Option M) (lockOk : Bool) (outLen : Nat) :
    Option (RenderStep M S) :=
  if lockOk then
    match slot with
    | none => none
    | some m =>
      let res := Requester.fill_buffer render eq lc req m outLen
      some ⟨res.req, some res.model,
        res.out ++ List.replicate (outLen - res.out.length) eq, res.renders⟩
  else some ⟨req, slot, List.replicate outLen eq, []⟩

/-- Result of one whole callback invocation: the carried state, the
samples written to the hardware output buffer (after sample-format
conversion by `fill_output`), the updates applied at each of the two
drain points, and the logical buffers produced by the user render
function during this invocation. -/
structure InvocationResult (M S O U : Type) where
  state : CallbackState M S U
  output : List O
  applied1 : List U
  applied2 : List U
  renders : List (List S)
  deriving DecidableEq

/-- The processing closure `proc_output` (output.rs lines 181-243):
drain the update channel, render through the requester, convert the
samples into the hardware buffer (`fill_output`, modelled by `conv`),
and drain the channel again.  A `take().unwrap()` panic is `none`.
Note that the closure never reads the `is_paused` flag of the shared
state. -/
def proc_output (render : M → List S → M × List S) (applyU : U → M → M)
    (conv : S → O) (eq : S) (lc : Nat)
    (st : CallbackState M S U) (iv : Invocation U) :
    Option (InvocationResult M S O U) :=
  match process_pending_updates applyU iv.inc1 iv.lock1 st.pending st.slot with
  | none => none
  | some d1 =>
    match render_step render eq lc st.req d1.slot iv.lockR iv.outLen with
    | none => none
    | some rs =>
      match process_pending_updates applyU iv.inc2 iv.lock2 d1.pending rs.slot with
      | none => none
      | some d2 =>
        some ⟨⟨d2.pending, d2.slot, rs.req⟩, rs.samples.map conv,
          d1.applied, d2.applied, rs.renders⟩

/-- A sequence of hardware callback invocations of the processing
closure, threading the callback state through and collecting the
hardware output buffers and the render traces. -/
def run_callbacks (render : M → List S → M × List S) (applyU : U → M → M)
    (conv : S → O) (eq : S) (lc : Nat) :
    CallbackState M S U → List (Invocation U) →
    Option (CallbackState M S U × List (List O) × List (List S))
  | st, [] => some (st, [], [])
  | st, iv :: ivs =>
    match proc_output render applyU conv eq lc st iv with
    | none => none
    | some res =>
      match run_callbacks render applyU conv eq lc res.state ivs with
      | none => none
      | some rest => some (rest.1, res.output :: rest.2.1, res.renders ++ rest.2.2)

/-- Sample encodings offered by the hardware abstraction
(`cpal::SampleFormat`; the three back-ends of output.rs lines 230-240). -/
inductive SampleFormat
  | U16
  | I16
  | F32
  deriving DecidableEq

/-- A negotiated hardware format (`cpal::Format`): channel count, sample
rate and sample encoding. -/
structure Format where
  channels : Nat
  sample_rate : Nat
  data_type : SampleFormat
  deriving DecidableEq

/-- One entry of the supported-format enumeration of a device
(`cpal::SupportedFormat`): a channel count, a sample-rate range and a
sample encoding. -/
structure SupportedFormat where
  channels : Nat
  min_sample_rate : Nat
  max_sample_rate : Nat
  data_type : SampleFormat
  deriving DecidableEq

/-- A hardware output endpoint: its optional default output format and
its supported-format enumeration.  Modelled from the spec (section 3,
Device): a read-only external resource carrying a supported format list;
per section 4.2 the queries are pure. -/
structure Device where
  default_output_format : Option Format
  supported_output_formats : List SupportedFormat
  deriving DecidableEq

/-- The build error taxonomy (`super::BuildError`, spec section 7):
no default device, no supported format for the requested
channels/encoding, or a propagated hardware registration failure. -/
inductive BuildError
  | DefaultDevice
  | FormatUnsupported
  | Hardware (code : Nat)
  deriving DecidableEq

/-- Does a concrete format satisfy the requested channel count (when one
was requested) and the requested sample encoding?  Sample rate is
deliberately not consulted (spec section 4.2). -/
def format_satisfies (req_channels : Option Nat) (sf : SampleFormat) (f : Format) :
    Bool :=
  (match req_channels with
   | none => true
   | some c => f.channels == c) && f.data_type == sf

/-- Does a supported-format entry satisfy the requested channel count
(when one was requested) and the requested sample encoding?  Sample rate
is deliberately not consulted (spec section 4.2). -/
def supported_satisfies (req_channels : Option Nat) (sf : SampleFormat)
    (f : SupportedFormat) : Bool :=
  (match req_channels with
   | none => true
   | some c => f.channels == c) && f.data_type == sf

/-- Is the requested sample rate inside the sample-rate range of a
supported-format entry? -/
def rate_in_range (rate : Nat) (f : SupportedFormat) : Bool :=
  f.min_sample_rate ≤ rate && rate ≤ f.max_sample_rate

/-- Clamp the requested sample rate into the range of a supported-format
entry (the tie-break the spec leaves open in section 9). -/
def clamp_rate (rate : Nat) (f : SupportedFormat) : Nat :=
  max f.min_sample_rate (min rate f.max_sample_rate)

/-- Modelled from the spec (section 4.2): `super::find_best_matching_format`
is not among the provided sources; only its call site in
`Builder::build` (output.rs lines 149-158) is.  Scan step: consider the
supported entries matching requested channels and encoding; fail with
`FormatUnsupported` when there is none, regardless of sample rate.
Among the matches prefer the first one whose rate range contains the
requested rate (taking the requested rate exactly); otherwise take the
first match with the rate clamped into its range (the tie-break the spec
leaves open in section 9). -/
def scan_supported_formats (sf : SampleFormat) (req_channels : Option Nat)
    (req_rate : Nat) (supported : List SupportedFormat) : Except BuildError Format :=
  match supported.filter (supported_satisfies req_channels sf) with
  | [] => Except.error BuildError.FormatUnsupported
  | c :: cs =>
    match (c :: cs).filter (rate_in_range req_rate) with
    | [] => Except.ok ⟨c.channels, clamp_rate req_rate c, c.data_type⟩
    | r :: _ => Except.ok ⟨r.channels, req_rate, r.data_type⟩

/-- Modelled from the spec (section 4.2), continued: prefer a default
format satisfying the requested channels and encoding, otherwise scan
the supported list. -/
def find_best_matching_format (sf : SampleFormat) (req_channels : Option Nat)
    (req_rate : Nat) (default : Option Format) (supported : List SupportedFormat) :
    Except BuildError Format :=
  match default with
  | some d =>
    if format_satisfies req_channels sf d then Except.ok d
    else scan_supported_formats sf req_channels req_rate supported
  | none => scan_supported_formats sf req_channels req_rate supported

/-- The stream builder configuration (`super::Builder` as carried by
`audio::stream::output::Builder`): the optional sample rate, channel
count, frames-per-buffer and device pin.  The model and render function
are type-level in the source and are passed separately here. -/
structure Builder where
  sample_rate : Option Nat
  channels : Option Nat
  frames_per_buffer : Option Nat
  device : Option Device
  deriving DecidableEq

/-- `Builder::sample_rate` (output.rs lines 95-99): `assert!(sample_rate
> 0)` then record the value.  The fatal assertion is modelled as
`none`. -/
def Builder.set_sample_rate (b : Builder) (sample_rate : Nat) : Option Builder :=
  if 0 < sample_rate then some { b with sample_rate := some sample_rate } else none

/-- `Builder::channels` (output.rs lines 101-105): `assert!(channels >
0)` then record the value.  The fatal assertion is modelled as
`none`. -/
def Builder.set_channels (b : Builder) (channels : Nat) : Option Builder :=
  if 0 < channels then some { b with channels := some channels } else none

/-- `Builder::device` (output.rs lines 107-110): record the device. -/
def Builder.set_device (b : Builder) (device : Device) : Builder :=
  { b with device := some device }

/-- `Builder::frames_per_buffer` (output.rs lines 112-116):
`assert!(frames_per_buffer > 0)` then record the value.  The fatal
assertion is modelled as `none`. -/
def Builder.set_frames_per_buffer (b : Builder) (frames_per_buffer : Nat) :
    Option Builder :=
  if 0 < frames_per_buffer then
    some { b with frames_per_buffer := some frames_per_buffer }
  else none

/-- Modelled from the spec (section 4.3): the documented default sample
rate used when none was requested (`super::DEFAULT_SAMPLE_RATE`, not
among the provided sources).  The claims do not depend on its value. -/
def DEFAULT_SAMPLE_RATE : Nat := 44100

/-- The device-resolution step of `Builder::build` (output.rs lines
144-147): an explicitly set device wins; otherwise the system default
output device is used, and its absence is the `DefaultDevice` error. -/
def resolve_device (b : Builder) (default_output_device : Option Device) :
    Option Device :=
  match b.device with
  | none => default_output_device
  | some d => d

/-- What `Builder::build` registered with the hardware callback registry:
the stream ids built on the event loop (`event_loop.build_output_stream`,
output.rs line 159) and the stream ids for which a processing closure
was sent to the registry (`process_fn_tx.send`, output.rs lines
246-248). -/
structure BuildEffects where
  registered : List Nat
  process_fns_sent : List Nat
  deriving DecidableEq

/-- The stream value returned by a successful `Builder::build` (output.rs
lines 250-263): the shared state holds the model slot (initialised
`Some(model)`), the stream id and an `is_paused` flag initialised to
`false`. -/
structure StreamRecord (M : Type) where
  stream_id : Nat
  cpal_format : Format
  model : Option M
  is_paused : Bool

/-- `Builder::build` (output.rs lines 118-264): resolve the device (error
`DefaultDevice` when none is set and no system default exists),
negotiate the format, build the output stream on the event loop
(`register` is the outcome of `event_loop.build_output_stream`: a
hardware error code or a fresh stream id), send the processing closure
to the registry, and return the stream handle.  The second component
records the externally visible registration effects. -/
def build (M : Type) (model : M) (b : Builder) (sf : SampleFormat)
    (default_output_device : Option Device) (register : Except Nat Nat) :
    Except BuildError (StreamRecord M) × BuildEffects :=
  let sample_rate := b.sample_rate.getD DEFAULT_SAMPLE_RATE
  match resolve_device b default_output_device with
  | none => (Except.error BuildError.DefaultDevice, ⟨[], []⟩)
  | some device =>
    match find_best_matching_format sf b.channels sample_rate
        device.default_output_format device.supported_output_formats with
    | Except.error e => (Except.error e, ⟨[], []⟩)
    | Except.ok format =>
      match register with
      | Except.error code => (Except.error (BuildError.Hardware code), ⟨[], []⟩)
      | Except.ok stream_id =>
        (Except.ok ⟨stream_id, format, some model, false⟩, ⟨[stream_id], [stream_id]⟩)

/-- The shared state of a live stream (`super::Shared` as constructed in
output.rs lines 250-255): the model slot, the stream id, and the
`is_paused` atomic flag. -/
structure Shared (M : Type) where
  model : Option M
  stream_id : Nat
  is_paused : Bool

/-- Modelled from the spec (section 4.6): `pause` sets the shared
`is_paused` flag.  The implementation of `Stream::pause` is not among
the provided sources; only the `Shared` construction in `Builder::build`
is. -/
def Shared.pause (sh : Shared M) : Shared M :=
  { sh with is_paused := true }

/-- The user render function that paints every sample with the constant
7, used to exercise the processing closure on concrete inputs. -/
def demoRender : Unit → List Int → Unit × List Int :=
  fun u b => (u, b.map (fun _ => 7))

/-- A trivial update application on a unit model. -/
def demoApply : Unit → Unit → Unit := fun _ u => u

/-- A shared state that `pause` has been called on. -/
def pausedShared : Shared Unit := Shared.pause ⟨some (), 0, false⟩

/-- The callback state whose model slot is the slot of `pausedShared`,
with a fresh one-frame, one-channel requester. -/
def pausedState : CallbackState Unit Int Unit :=
  ⟨[], pausedShared.model, Requester.new 1 1 0⟩

/-- A hardware callback invocation with no update traffic and all lock
acquisitions succeeding, delivering a hardware buffer of `h` samples. -/
def chunkInvocation (h : Nat) : Invocation U := ⟨[], [], true, true, true, h⟩

/-- A render function that stamps each buffer with the current counter
model and bumps the counter; used to instantiate the rebuffering theorem
on concrete inputs. -/
def wRender : Nat → List Int → Nat × List Int :=
  fun m b => (m + 1, b.map (fun _ => (m : Int)))

theorem fill_buffer_zero (render : M → List S → M × List S) (eq : S) (lc : Nat)
    (r : Requester S) (m : M) :
    Requester.fill_buffer render eq lc r m 0 = ⟨r, m, [], []⟩ := by
  rw [Requester.fill_buffer]
  rfl

theorem fill_buffer_render (render : M → List S → M × List S) (eq : S) (lc : Nat)
    (r : Requester S) (m : M) (n : Nat) (hn : ¬ n = 0) (hc : r.buffer.length ≤ r.cursor)
    (hz : ¬ (render m (List.replicate lc eq)).2.length = 0) :
    Requester.fill_buffer render eq lc r m n =
      { req := (Requester.fill_buffer render eq lc
          ⟨(render m (List.replicate lc eq)).2,
            min n (render m (List.replicate lc eq)).2.length⟩
          (render m (List.replicate lc eq)).1
          (n - min n (render m (List.replicate lc eq)).2.length)).req
        model := (Requester.fill_buffer render eq lc
          ⟨(render m (List.replicate lc eq)).2,
            min n (render m (List.replicate lc eq)).2.length⟩
          (render m (List.replicate lc eq)).1
          (n - min n (render m (List.replicate lc eq)).2.length)).model
        out := (render m (List.replicate lc eq)).2.take
            (min n (render m (List.replicate lc eq)).2.length) ++
          (Requester.fill_buffer render eq lc
            ⟨(render m (List.replicate lc eq)).2,
              min n (render m (List.replicate lc eq)).2.length⟩
            (render m (List.replicate lc eq)).1
            (n - min n (render m (List.replicate lc eq)).2.length)).out
        renders := (render m (List.replicate lc eq)).2 ::
          (Requester.fill_buffer render eq lc
            ⟨(render m (List.replicate lc eq)).2,
              min n (render m (List.replicate lc eq)).2.length⟩
            (render m (List.replicate lc eq)).1
            (n - min n (render m (List.replicate lc eq)).2.length)).renders } := by
  conv_lhs => rw [Requester.fill_buffer]
  simp only [dif_neg hn, dif_pos hc, dif_neg hz]

theorem fill_buffer_copy (render : M → List S → M × List S) (eq : S) (lc : Nat)
    (r : Requester S) (m : M) (n : Nat) (hn : ¬ n = 0) (hc : ¬ r.buffer.length ≤ r.cursor) :
    Requester.fill_buffer render eq lc r m n =
      { req := (Requester.fill_buffer render eq lc
          ⟨r.buffer, r.cursor + min n (r.buffer.length - r.cursor)⟩ m
          (n - min n (r.buffer.length - r.cursor))).req
        model := (Requester.fill_buffer render eq lc
          ⟨r.buffer, r.cursor + min n (r.buffer.length - r.cursor)⟩ m
          (n - min n (r.buffer.length - r.cursor))).model
        out := (r.buffer.drop r.cursor).take (min n (r.buffer.length - r.cursor)) ++
          (Requester.fill_buffer render eq lc
            ⟨r.buffer, r.cursor + min n (r.buffer.length - r.cursor)⟩ m
            (n - min n (r.buffer.length - r.cursor))).out
        renders := (Requester.fill_buffer render eq lc
          ⟨r.buffer, r.cursor + min n (r.buffer.length - r.cursor)⟩ m
          (n - min n (r.buffer.length - r.cursor))).renders } := by
  conv_lhs => rw [Requester.fill_buffer]
  simp only [dif_neg hn, dif_neg hc]

theorem fill_buffer_spec (render : M → List S → M × List S) (eq : S) (lc : Nat)
    (hlp : ∀ (m : M) (b : List S), ((render m b).2).length = b.length) (hlc : 0 < lc) :
    ∀ (n : Nat) (r : Requester S) (m : M) (fr : FillResult M S),
      r.buffer.length = lc → r.cursor ≤ lc →
      Requester.fill_buffer render eq lc r m n = fr →
      fr.req.buffer.length = lc ∧ fr.req.cursor ≤ lc ∧ fr.out.length = n ∧
      r.buffer.drop r.cursor ++ fr.renders.flatten =
        fr.out ++ fr.req.buffer.drop fr.req.cursor ∧
      renderChain render eq lc m fr.renders.length = (fr.model, fr.renders) ∧
      (0 < n → 0 < fr.req.cursor) ∧
      (n = 0 → fr = ⟨r, m, [], []⟩) := by
  intro n
  induction n using Nat.strong_induction_on with
  | _ n ih =>
    intro r m fr hlen hcur heq
    by_cases hn : n = 0
    · subst hn
      rw [fill_buffer_zero] at heq
      subst heq
      refine ⟨hlen, hcur, rfl, by simp, rfl, by omega, fun _ => rfl⟩
    · by_cases hc : r.buffer.length ≤ r.cursor
      · -- render branch
        have hplen : (render m (List.replicate lc eq)).2.length = lc := by
          rw [hlp]; simp
        have hz : ¬ (render m (List.replicate lc eq)).2.length = 0 := by omega
        rw [fill_buffer_render render eq lc r m n hn hc hz] at heq
        have hk1 : min n (render m (List.replicate lc eq)).2.length ≤ lc := by omega
        subst heq
        set p2 := (render m (List.replicate lc eq)).2 with hp2
        set K := min n p2.length with hK
        set FB := Requester.fill_buffer render eq lc ⟨p2, K⟩
          (render m (List.replicate lc eq)).1 (n - K) with hFB
        obtain ⟨h1, h2, h3, h4, h5, h6, h7⟩ := ih (n - K) (by omega) ⟨p2, K⟩
          (render m (List.replicate lc eq)).1 FB hplen (by show K ≤ lc; omega) rfl
        refine ⟨h1, h2, ?_, ?_, ?_, ?_, ?_⟩
        · simp only [List.length_append, List.length_take]
          omega
        · show r.buffer.drop r.cursor ++ (p2 :: FB.renders).flatten =
            (p2.take K ++ FB.out) ++ FB.req.buffer.drop FB.req.cursor
          have hdr : r.buffer.drop r.cursor = [] := List.drop_eq_nil_of_le hc
          have h4' : p2.drop K ++ FB.renders.flatten =
              FB.out ++ FB.req.buffer.drop FB.req.cursor := h4
          calc r.buffer.drop r.cursor ++ (p2 :: FB.renders).flatten
              = (p2.take K ++ p2.drop K) ++ FB.renders.flatten := by
                rw [hdr, List.take_append_drop]; rfl
            _ = p2.take K ++ (p2.drop K ++ FB.renders.flatten) := by
                rw [List.append_assoc]
            _ = p2.take K ++ (FB.out ++ FB.req.buffer.drop FB.req.cursor) := by rw [h4']
            _ = (p2.take K ++ FB.out) ++ FB.req.buffer.drop FB.req.cursor := by
                rw [List.append_assoc]
        · show renderChain render eq lc m (p2 :: FB.renders).length =
            (FB.model, p2 :: FB.renders)
          have : (p2 :: FB.renders).length = FB.renders.length + 1 := rfl
          rw [this, renderChain]
          simp only [← hp2, h5]
        · intro hpos
          by_cases hlast : n - K = 0
          · have := h7 hlast
            rw [this]
            show 0 < K
            omega
          · exact h6 (by omega)
        · intro h0; exact absurd h0 hn
      · -- copy branch
        rw [fill_buffer_copy render eq lc r m n hn hc] at heq
        subst heq
        set K := min n (r.buffer.length - r.cursor) with hK
        set FB := Requester.fill_buffer render eq lc ⟨r.buffer, r.cursor + K⟩ m (n - K)
          with hFB
        obtain ⟨h1, h2, h3, h4, h5, h6, h7⟩ := ih (n - K) (by omega)
          ⟨r.buffer, r.cursor + K⟩ m FB hlen (by show r.cursor + K ≤ lc; omega) rfl
        refine ⟨h1, h2, ?_, ?_, h5, ?_, ?_⟩
        · simp only [List.length_append, List.length_take, List.length_drop]
          omega
        · show r.buffer.drop r.cursor ++ FB.renders.flatten =
            ((r.buffer.drop r.cursor).take K ++ FB.out) ++
              FB.req.buffer.drop FB.req.cursor
          have h4' : r.buffer.drop (r.cursor + K) ++ FB.renders.flatten =
              FB.out ++ FB.req.buffer.drop FB.req.cursor := h4
          calc r.buffer.drop r.cursor ++ FB.renders.flatten
              = ((r.buffer.drop r.cursor).take K ++ (r.buffer.drop r.cursor).drop K) ++
                  FB.renders.flatten := by rw [List.take_append_drop]
            _ = (r.buffer.drop r.cursor).take K ++
                  (r.buffer.drop (r.cursor + K) ++ FB.renders.flatten) := by
                rw [List.append_assoc, List.drop_drop]
            _ = (r.buffer.drop r.cursor).take K ++
                  (FB.out ++ FB.req.buffer.drop FB.req.cursor) := by rw [h4']
            _ = ((r.buffer.drop r.cursor).take K ++ FB.out) ++
                  FB.req.buffer.drop FB.req.cursor := by rw [List.append_assoc]
        · intro hpos
          by_cases hlast : n - K = 0
          · have := h7 hlast
            rw [this]
            show 0 < r.cursor + K
            omega
          · exact h6 (by omega)
        · intro h0; exact absurd h0 hn

theorem renderChain_length (render : M → List S → M × List S) (eq : S) (lc : Nat) :
    ∀ (k : Nat) (m : M), ((renderChain render eq lc m k).2).length = k := by
  intro k
  induction k with
  | zero => intro m; rfl
  | succ k ihk =>
    intro m
    simp only [renderChain, List.length_cons, ihk]

theorem renderChain_add (render : M → List S → M × List S) (eq : S) (lc : Nat) :
    ∀ (k1 k2 : Nat) (m : M),
      renderChain render eq lc m (k1 + k2) =
        ((renderChain render eq lc (renderChain render eq lc m k1).1 k2).1,
         (renderChain render eq lc m k1).2 ++
           (renderChain render eq lc (renderChain render eq lc m k1).1 k2).2) := by
  intro k1
  induction k1 with
  | zero =>
    intro k2 m
    simp only [Nat.zero_add, renderChain, List.nil_append]
  | succ k1 ihk =>
    intro k2 m
    have harith : k1 + 1 + k2 = (k1 + k2) + 1 := by omega
    rw [harith]
    simp only [renderChain, ihk, List.cons_append]

theorem renderChain_mem_length (render : M → List S → M × List S) (eq : S) (lc : Nat)
    (hlp : ∀ (m : M) (b : List S), ((render m b).2).length = b.length) :
    ∀ (k : Nat) (m : M) (b : List S), b ∈ (renderChain render eq lc m k).2 →
      b.length = lc := by
  intro k
  induction k with
  | zero => intro m b hb; simp [renderChain] at hb
  | succ k ihk =>
    intro m b hb
    simp only [renderChain, List.mem_cons] at hb
    rcases hb with hb | hb
    · subst hb; rw [hlp]; simp
    · exact ihk _ _ hb

theorem flatten_length_const (lc : Nat) :
    ∀ (l : List (List S)), (∀ b ∈ l, b.length = lc) →
      l.flatten.length = l.length * lc := by
  intro l
  induction l with
  | nil => intro _; simp
  | cons b l ihl =>
    intro h
    simp only [List.flatten_cons, List.length_append, List.length_cons]
    rw [h b (by simp), ihl (fun x hx => h x (by simp [hx]))]
    ring

theorem process_pending_updates_some_slot (applyU : U → M → M) (inc : List U)
    (lockOk : Bool) (pending : List U) (m : M) :
    process_pending_updates applyU inc lockOk pending (some m) =
      if (pending ++ inc).isEmpty then some ⟨pending ++ inc, some m, []⟩
      else if lockOk then
        some ⟨[], some (applyUpdates applyU m (pending ++ inc)), pending ++ inc⟩
      else some ⟨pending ++ inc, some m, []⟩ := rfl

theorem process_pending_updates_no_lock (applyU : U → M → M) (inc : List U)
    (pending : List U) (slot : Option M) :
    process_pending_updates applyU inc false pending slot =
      some ⟨pending ++ inc, slot, []⟩ := by
  rw [process_pending_updates.eq_def]
  cases h : (pending ++ inc).isEmpty
  · simp [h]
  · simp [h]

theorem process_pending_updates_total (applyU : U → M → M) (inc : List U)
    (lockOk : Bool) (pending : List U) (m : M) :
    ∃ (p : List U) (m2 : M) (a : List U),
      process_pending_updates applyU inc lockOk pending (some m) =
        some ⟨p, some m2, a⟩ := by
  rw [process_pending_updates_some_slot]
  split_ifs
  · exact ⟨_, _, _, rfl⟩
  · exact ⟨_, _, _, rfl⟩
  · exact ⟨_, _, _, rfl⟩

theorem render_step_no_lock (render : M → List S → M × List S) (eq : S) (lc : Nat)
    (req : Requester S) (slot : Option M) (outLen : Nat) :
    render_step render eq lc req slot false outLen =
      some ⟨req, slot, List.replicate outLen eq, []⟩ := rfl

theorem render_step_lock (render : M → List S → M × List S) (eq : S) (lc : Nat)
    (req : Requester S) (m : M) (outLen : Nat) :
    render_step render eq lc req (some m) true outLen =
      some ⟨(Requester.fill_buffer render eq lc req m outLen).req,
        some (Requester.fill_buffer render eq lc req m outLen).model,
        (Requester.fill_buffer render eq lc req m outLen).out ++
          List.replicate
            (outLen - (Requester.fill_buffer render eq lc req m outLen).out.length) eq,
        (Requester.fill_buffer render eq lc req m outLen).renders⟩ := rfl

theorem render_step_total (render : M → List S → M × List S) (eq : S) (lc : Nat)
    (req : Requester S) (m : M) (lockOk : Bool) (outLen : Nat) :
    ∃ (rs : RenderStep M S) (m2 : M),
      render_step render eq lc req (some m) lockOk outLen = some rs ∧
        rs.slot = some m2 := by
  cases lockOk
  · exact ⟨_, m, render_step_no_lock render eq lc req (some m) outLen, rfl⟩
  · exact ⟨_, _, render_step_lock render eq lc req m outLen, rfl⟩

/-- C4: Calling `sample_rate(0)`, `channels(0)` or `frames_per_buffer(0)`
on the output stream builder trips the `assert!` inside the setter
itself (modelled as the `none` outcome), immediately at configuration
time: no `Builder` value is produced, so `build` is never reached and no
hardware registration is attempted. -/
theorem c4_zero_parameter_assertions (b : Builder) :
    b.set_sample_rate 0 = none ∧ b.set_channels 0 = none ∧
      b.set_frames_per_buffer 0 = none := by
  refine ⟨?_, ?_, ?_⟩ <;> rfl

/-- C8: When the render-section mutex acquisition fails during a
hardware callback invocation, the user render function is not invoked
(the render trace is empty), the entire hardware output buffer is filled
with the converted equilibrium (silence) value, the requester state is
untouched, and the callback completes normally (`some`, no panic and no
propagated error). -/
theorem c8_render_lock_failure_silence (render : M → List S → M × List S)
    (applyU : U → M → M) (conv : S → O) (eq : S) (lc : Nat)
    (pending : List U) (m : M) (req : Requester S) (inc1 inc2 : List U)
    (l1 l2 : Bool) (n : Nat) :
    ∃ res, proc_output render applyU conv eq lc ⟨pending, some m, req⟩
        ⟨inc1, inc2, l1, false, l2, n⟩ = some res ∧
      res.renders = [] ∧ res.output = List.replicate n (conv eq) ∧
      res.state.req = req := by
  obtain ⟨p1, m1, a1, h1⟩ :=
    process_pending_updates_total applyU inc1 l1 pending m
  obtain ⟨p2, m2, a2, h2⟩ :=
    process_pending_updates_total applyU inc2 l2 p1 m1
  refine ⟨⟨⟨p2, some m2, req⟩, (List.replicate n eq).map conv, a1, a2, []⟩, ?_, rfl,
    List.map_replicate, rfl⟩
  simp only [proc_output, h1, render_step_no_lock, h2]

/-- C10: When the entry drain point fails to acquire the model lock, the
updates already received from the channel are not applied there
(`applied1 = []`) and are not lost: they stay in the pending-updates
buffer and the next drain point that does acquire the lock (here the
exit drain point of the same invocation) applies them in their original
FIFO order, ahead of the updates received later (`inc2`), leaving the
pending buffer empty and the model equal to the single left fold over
the full submission order. -/
theorem c10_failed_drain_retains_updates (render : M → List S → M × List S)
    (applyU : U → M → M) (conv : S → O) (eq : S) (lc : Nat)
    (pending : List U) (m : M) (req : Requester S) (inc1 inc2 : List U) (n : Nat) :
    ∃ res, proc_output render applyU conv eq lc ⟨pending, some m, req⟩
        ⟨inc1, inc2, false, false, true, n⟩ = some res ∧
      res.applied1 = [] ∧
      res.applied2 = (pending ++ inc1) ++ inc2 ∧
      res.state.pending = [] ∧
      res.state.slot = some (applyUpdates applyU m ((pending ++ inc1) ++ inc2)) := by
  have h1 := process_pending_updates_no_lock applyU inc1 pending (some m)
  by_cases h : (pending ++ inc1) ++ inc2 = []
  · refine ⟨⟨⟨(pending ++ inc1) ++ inc2, some m, req⟩, (List.replicate n eq).map conv,
      [], [], []⟩, ?_, rfl, h.symm, h, ?_⟩
    · simp only [proc_output, h1, render_step_no_lock,
        process_pending_updates_some_slot]
      rw [if_pos (by simp [h])]
    · rw [h]
      rfl
  · refine ⟨⟨⟨[], some (applyUpdates applyU m ((pending ++ inc1) ++ inc2)), req⟩,
      (List.replicate n eq).map conv, [], (pending ++ inc1) ++ inc2, []⟩, ?_, rfl, rfl,
      rfl, rfl⟩
    simp only [proc_output, h1, render_step_no_lock,
      process_pending_updates_some_slot]
    rw [if_neg (by simpa using h)]
    simp

theorem proc_output_locks_ok (render : M → List S → M × List S)
    (applyU : U → M → M) (conv : S → O) (eq : S) (lc : Nat)
    (p0 : List U) (m : M) (req : Requester S) (inc1 inc2 : List U) (n : Nat) :
    proc_output render applyU conv eq lc ⟨p0, some m, req⟩
        ⟨inc1, inc2, true, true, true, n⟩ =
      some ⟨⟨[],
        some (applyUpdates applyU
          (Requester.fill_buffer render eq lc req
            (applyUpdates applyU m (p0 ++ inc1)) n).model inc2),
        (Requester.fill_buffer render eq lc req
          (applyUpdates applyU m (p0 ++ inc1)) n).req⟩,
        ((Requester.fill_buffer render eq lc req
            (applyUpdates applyU m (p0 ++ inc1)) n).out ++
          List.replicate
            (n - (Requester.fill_buffer render eq lc req
              (applyUpdates applyU m (p0 ++ inc1)) n).out.length) eq).map conv,
        p0 ++ inc1, inc2,
        (Requester.fill_buffer render eq lc req
          (applyUpdates applyU m (p0 ++ inc1)) n).renders⟩ := by
  by_cases hA : p0 ++ inc1 = []
  · by_cases hB : (inc2 : List U) = []
    · simp [proc_output, process_pending_updates_some_slot, hA, hB,
        render_step_lock, applyUpdates]
    · simp [proc_output, process_pending_updates_some_slot, hA, hB,
        render_step_lock, applyUpdates]
  · by_cases hB : (inc2 : List U) = []
    · simp [proc_output, process_pending_updates_some_slot, hA, hB,
        render_step_lock, applyUpdates]
    · simp [proc_output, process_pending_updates_some_slot, hA, hB,
        render_step_lock, applyUpdates]

theorem proc_output_preserves_slot (render : M → List S → M × List S)
    (applyU : U → M → M) (conv : S → O) (eq : S) (lc : Nat)
    (st : CallbackState M S U) (iv : Invocation U) (m : M) (hm : st.slot = some m) :
    ∃ (res : InvocationResult M S O U) (m2 : M),
      proc_output render applyU conv eq lc st iv = some res ∧
        res.state.slot = some m2 := by
  obtain ⟨p1, m1, a1, h1⟩ :=
    process_pending_updates_total applyU iv.inc1 iv.lock1 st.pending m
  obtain ⟨rs, mr, hrs, hslot⟩ :=
    render_step_total render eq lc st.req m1 iv.lockR iv.outLen
  obtain ⟨p2, m2, a2, h2⟩ :=
    process_pending_updates_total applyU iv.inc2 iv.lock2 p1 mr
  refine ⟨⟨⟨p2, some m2, rs.req⟩, rs.samples.map conv, a1, a2, rs.renders⟩, m2, ?_, rfl⟩
  rw [proc_output, hm, h1]
  simp only [hrs]
  rw [← hslot] at h2
  simp only [h2]

theorem run_callbacks_slot_some (render : M → List S → M × List S)
    (applyU : U → M → M) (conv : S → O) (eq : S) (lc : Nat) :
    ∀ (ivs : List (Invocation U)) (st : CallbackState M S U) (m : M),
      st.slot = some m →
      ∃ (fin : CallbackState M S U) (outs : List (List O)) (trs : List (List S))
        (m2 : M),
        run_callbacks render applyU conv eq lc st ivs = some (fin, outs, trs) ∧
          fin.slot = some m2 := by
  intro ivs
  induction ivs with
  | nil => intro st m hm; exact ⟨st, [], [], m, rfl, hm⟩
  | cons iv ivs ih =>
    intro st m hm
    obtain ⟨res, m2, hres, hslot⟩ :=
      proc_output_preserves_slot render applyU conv eq lc st iv m hm
    obtain ⟨fin, outs, trs, m3, hrun, hslot3⟩ := ih res.state m2 hslot
    refine ⟨fin, res.output :: outs, res.renders ++ trs, m3, ?_, hslot3⟩
    rw [run_callbacks, hres]
    simp only [hrun]

theorem scan_supported_formats_error_iff (sf : SampleFormat) (ch : Option Nat)
    (rate : Nat) (supported : List SupportedFormat) (e : BuildError) :
    scan_supported_formats sf ch rate supported = Except.error e ↔
      (e = BuildError.FormatUnsupported ∧
        ∀ f ∈ supported, ¬ supported_satisfies ch sf f = true) := by
  rw [scan_supported_formats.eq_def]
  cases hfil : supported.filter (supported_satisfies ch sf) with
  | nil =>
    have hall := List.filter_eq_nil_iff.mp hfil
    constructor
    · intro h
      injection h with h
      exact ⟨h.symm, hall⟩
    · intro h
      rw [h.1]
  | cons c cs =>
    have hc : c ∈ supported ∧ supported_satisfies ch sf c = true :=
      List.mem_filter.mp (hfil ▸ List.mem_cons_self c cs)
    constructor
    · intro h
      dsimp only at h
      cases hr : (c :: cs).filter (rate_in_range rate) with
      | nil => rw [hr] at h; simp at h
      | cons r rs => rw [hr] at h; simp at h
    · intro h
      exact absurd (h.2 c hc.1) (by simp [hc.2])

theorem find_best_matching_format_none (sf : SampleFormat) (ch : Option Nat)
    (rate : Nat) (supported : List SupportedFormat) :
    find_best_matching_format sf ch rate none supported =
      scan_supported_formats sf ch rate supported := rfl

theorem find_best_matching_format_some (sf : SampleFormat) (ch : Option Nat)
    (rate : Nat) (d : Format) (supported : List SupportedFormat) :
    find_best_matching_format sf ch rate (some d) supported =
      if format_satisfies ch sf d then Except.ok d
      else scan_supported_formats sf ch rate supported := rfl

theorem find_best_matching_format_error_iff (sf : SampleFormat) (ch : Option Nat)
    (rate : Nat) (dflt : Option Format) (supported : List SupportedFormat)
    (e : BuildError) :
    find_best_matching_format sf ch rate dflt supported = Except.error e ↔
      (e = BuildError.FormatUnsupported ∧
        (∀ f, dflt = some f → ¬ format_satisfies ch sf f = true) ∧
        ∀ f ∈ supported, ¬ supported_satisfies ch sf f = true) := by
  cases dflt with
  | none =>
    rw [find_best_matching_format_none, scan_supported_formats_error_iff]
    constructor
    · intro h
      exact ⟨h.1, fun f hf => Option.noConfusion hf, h.2⟩
    · intro h
      exact ⟨h.1, h.2.2⟩
  | some f0 =>
    rw [find_best_matching_format_some]
    by_cases hf : format_satisfies ch sf f0 = true
    · rw [if_pos hf]
      constructor
      · intro h
        exact Except.noConfusion h
      · intro h
        exact absurd hf (h.2.1 f0 rfl)
    · rw [if_neg hf, scan_supported_formats_error_iff]
      constructor
      · intro h
        refine ⟨h.1, ?_, h.2⟩
        intro f hfeq
        injection hfeq with hfeq
        rw [← hfeq]
        exact hf
      · intro h
        exact ⟨h.1, h.2.2⟩

theorem resolve_device_unset (b : Builder) (defDev : Option Device)
    (h : b.device = none) : resolve_device b defDev = defDev := by
  rw [resolve_device.eq_def, h]

theorem resolve_device_set (b : Builder) (defDev : Option Device) (d : Device)
    (h : b.device = some d) : resolve_device b defDev = some d := by
  rw [resolve_device.eq_def, h]

/-- C5: When no device was pinned with `device(...)` and the system has
no default output device, `build` fails with
`BuildError::DefaultDevice` (output.rs line 145) and registers nothing;
and whenever a device was explicitly set, `build` can never produce the
`DefaultDevice` error, whatever the device offers and whatever the
hardware registration outcome is. -/
theorem c5_default_device_error (M : Type) (model : M) (b : Builder)
    (sf : SampleFormat) (defDev : Option Device) (register : Except Nat Nat) :
    (b.device = none → defDev = none →
      build M model b sf defDev register =
        (Except.error BuildError.DefaultDevice, ⟨[], []⟩)) ∧
    (∀ d, b.device = some d →
      (build M model b sf defDev register).1 ≠
        Except.error BuildError.DefaultDevice) := by
  constructor
  · intro h1 h2
    have hres : resolve_device b defDev = none := by
      rw [resolve_device_unset b defDev h1, h2]
    simp only [build, hres]
  · intro d hd
    have hres : resolve_device b defDev = some d := resolve_device_set b defDev d hd
    simp only [build, hres]
    cases hfind : find_best_matching_format sf b.channels
        (b.sample_rate.getD DEFAULT_SAMPLE_RATE) d.default_output_format
        d.supported_output_formats with
    | error e =>
      have he := (find_best_matching_format_error_iff _ _ _ _ _ _).mp hfind
      simp only [he.1]
      intro hcontra
      injection hcontra with hcontra
      cases hcontra
    | ok format =>
      cases register with
      | error code =>
        intro hcontra
        injection hcontra with hcontra
        cases hcontra
      | ok stream_id =>
        intro hcontra
        cases hcontra

/-- C6: With the device resolved, `build` returns (it does not crash:
the negotiation outcome is an `Except` value, never a panic) the error
`BuildError::FormatUnsupported` exactly when no format of the device —
neither its default output format nor any entry of its supported-format
enumeration — satisfies both the requested channel count and the
requested sample encoding.  The right-hand side of the equivalence does
not mention the requested sample rate: a sample-rate mismatch alone can
never produce this failure. -/
theorem c6_format_unsupported_iff (M : Type) (model : M) (b : Builder)
    (sf : SampleFormat) (defDev : Option Device) (register : Except Nat Nat)
    (d : Device) (hd : resolve_device b defDev = some d) :
    (build M model b sf defDev register).1 =
        Except.error BuildError.FormatUnsupported ↔
      ((∀ f, d.default_output_format = some f →
          ¬ format_satisfies b.channels sf f = true) ∧
        ∀ f ∈ d.supported_output_formats,
          ¬ supported_satisfies b.channels sf f = true) := by
  simp only [build, hd]
  cases hfind : find_best_matching_format sf b.channels
      (b.sample_rate.getD DEFAULT_SAMPLE_RATE) d.default_output_format
      d.supported_output_formats with
  | error e =>
    have he := (find_best_matching_format_error_iff _ _ _ _ _ _).mp hfind
    constructor
    · intro _
      exact he.2
    · intro _
      simp only [he.1]
  | ok format =>
    constructor
    · intro h
      cases register with
      | error code =>
        simp only at h
        injection h with h
        cases h
      | ok stream_id => cases h
    · intro h
      have hcon : find_best_matching_format sf b.channels
          (b.sample_rate.getD DEFAULT_SAMPLE_RATE) d.default_output_format
          d.supported_output_formats = Except.error BuildError.FormatUnsupported :=
        (find_best_matching_format_error_iff _ _ _ _ _ _).mpr ⟨rfl, h.1, h.2⟩
      rw [hfind] at hcon
      cases hcon

/-- C7: Whenever `build` returns an error, no stream is produced and no
partial state leaks: no stream was registered on the event loop and no
processing closure was sent to the hardware callback registry — the
effect log is empty; the registration (line 159) and the closure send
(lines 246-248) only happen on the all-success path. -/
theorem c7_failed_build_leaks_nothing (M : Type) (model : M) (b : Builder)
    (sf : SampleFormat) (defDev : Option Device) (register : Except Nat Nat)
    (e : BuildError)
    (he : (build M model b sf defDev register).1 = Except.error e) :
    (build M model b sf defDev register).2.registered = [] ∧
      (build M model b sf defDev register).2.process_fns_sent = [] := by
  cases hres : resolve_device b defDev with
  | none => simp [build, hres]
  | some d =>
    simp only [build, hres] at he ⊢
    cases hfind : find_best_matching_format sf b.channels
        (b.sample_rate.getD DEFAULT_SAMPLE_RATE) d.default_output_format
        d.supported_output_formats with
    | error e2 => simp [hfind]
    | ok format =>
      simp only [hfind] at he ⊢
      cases register with
      | error code => exact ⟨rfl, rfl⟩
      | ok stream_id => cases he

/-- C2: In a hardware callback invocation whose three mutex acquisitions
succeed, every update queued before the invocation begins (the carried
`p0` buffer followed by the channel contents `inc1`) is applied to the
model before the user render function is invoked — the requester renders
from `applyUpdates applyU m (p0 ++ inc1)`; every update arriving during
the render (`inc2`) is applied before the invocation returns; all
applications are in FIFO submission order (a single left fold over the
concatenation), and each update is applied exactly once:
`applied1 = p0 ++ inc1`, `applied2 = inc2`, with the pending buffer left
empty (nothing is carried over to be applied again). -/
theorem c2_update_ordering (render : M → List S → M × List S)
    (applyU : U → M → M) (conv : S → O) (eq : S) (lc : Nat)
    (p0 : List U) (m : M) (req : Requester S) (inc1 inc2 : List U) (n : Nat) :
    ∃ res, proc_output render applyU conv eq lc ⟨p0, some m, req⟩
        ⟨inc1, inc2, true, true, true, n⟩ = some res ∧
      res.applied1 = p0 ++ inc1 ∧
      res.applied2 = inc2 ∧
      res.state.pending = [] ∧
      res.state.slot = some (applyUpdates applyU
        (Requester.fill_buffer render eq lc req
          (applyUpdates applyU m (p0 ++ inc1)) n).model inc2) ∧
      res.renders = (Requester.fill_buffer render eq lc req
        (applyUpdates applyU m (p0 ++ inc1)) n).renders := by
  exact ⟨_, proc_output_locks_ok render applyU conv eq lc p0 m req inc1 inc2 n,
    rfl, rfl, rfl, rfl, rfl⟩

/-- C3 counterexample: the processing closure never reads `is_paused`
(it is not among the data `proc_output` consumes), so after `pause()`
set the flag, the very next hardware callback invocation still invokes
the user render function (one render of one frame here) and writes its
output `[7]` — not silence `[0]` — to the hardware buffer.  This
refutes the claim that every post-pause invocation observes the flag
and renders silence instead of invoking the render function. -/
theorem c3_pause_counterexample :
    pausedShared.is_paused = true ∧
    ∃ res, proc_output demoRender demoApply id 0 1 pausedState
        ⟨[], [], true, true, true, 1⟩ = some res ∧
      res.renders = [[7]] ∧
      res.output = [7] ∧
      ¬ res.output = List.replicate 1 (0 : Int) := by
  have hfb : Requester.fill_buffer demoRender 0 1 (Requester.new 1 1 0) () 1 =
      ⟨⟨[7], 1⟩, (), [7], [[7]]⟩ := by
    rw [fill_buffer_render demoRender 0 1 (Requester.new 1 1 0) () 1
      (by decide) (by decide) (by decide)]
    simp [demoRender, fill_buffer_zero]
  refine ⟨rfl, ⟨⟨⟨[], some (), ⟨[7], 1⟩⟩, [7], [], [], [[7]]⟩, ?_, rfl, rfl, by decide⟩⟩
  have h := proc_output_locks_ok demoRender demoApply (id : Int → Int) 0 1
    [] () (Requester.new 1 1 0) [] [] 1
  rw [show pausedState = ⟨[], some (), Requester.new 1 1 0⟩ from rfl]
  rw [h, hfb]
  rfl

/-- C3 amended: `pause` sets the shared `is_paused` flag and changes
nothing else; the processing closure does not observe the flag — an
invocation on the paused stream behaves exactly as when running: it
still drains the Model Channel at both drain points (no queued update is
lost during pause) and still invokes the user render function through
the requester. -/
theorem c3_pause_amended (render : M → List S → M × List S)
    (applyU : U → M → M) (conv : S → O) (eq : S) (lc : Nat)
    (sh : Shared M) (m : M) (hm : sh.model = some m)
    (p0 inc1 inc2 : List U) (req : Requester S) (n : Nat) :
    (Shared.pause sh).is_paused = true ∧
    (Shared.pause sh).model = sh.model ∧
    (Shared.pause sh).stream_id = sh.stream_id ∧
    ∃ res, proc_output render applyU conv eq lc ⟨p0, (Shared.pause sh).model, req⟩
        ⟨inc1, inc2, true, true, true, n⟩ = some res ∧
      res.applied1 = p0 ++ inc1 ∧
      res.applied2 = inc2 ∧
      res.renders = (Requester.fill_buffer render eq lc req
        (applyUpdates applyU m (p0 ++ inc1)) n).renders := by
  refine ⟨rfl, rfl, rfl, ?_⟩
  have hms : (Shared.pause sh).model = some m := by
    show sh.model = some m
    exact hm
  rw [hms]
  exact ⟨_, proc_output_locks_ok render applyU conv eq lc p0 m req inc1 inc2 n,
    rfl, rfl, rfl⟩

/-- C3 amended, witness at concrete inputs. -/
theorem c3_pause_amended_witness :
    (⟨some (), 0, false⟩ : Shared Unit).model = some () ∧
    ((Shared.pause ⟨some (), 0, false⟩).is_paused = true ∧
      (Shared.pause (⟨some (), 0, false⟩ : Shared Unit)).model = some () ∧
      (Shared.pause (⟨some (), 0, false⟩ : Shared Unit)).stream_id = 0 ∧
      ∃ res, proc_output demoRender demoApply (id : Int → Int) 0 1
          ⟨[], (Shared.pause ⟨some (), 0, false⟩).model, Requester.new 1 1 0⟩
          ⟨[], [], true, true, true, 1⟩ = some res ∧
        res.applied1 = [] ++ [] ∧
        res.applied2 = [] ∧
        res.renders = (Requester.fill_buffer demoRender 0 1 (Requester.new 1 1 0)
          (applyUpdates demoApply () ([] ++ [])) 1).renders) :=
  ⟨rfl, c3_pause_amended demoRender demoApply id 0 1 ⟨some (), 0, false⟩ () rfl
    [] [] [] (Requester.new 1 1 0) 1⟩

/-- C9: Starting from a callback state whose shared slot holds
`some model` (as `build` initialises it, output.rs line 161), every
finite sequence of hardware callback invocations — with arbitrary
update traffic and arbitrary lock outcomes — completes without the
take-then-unwrap panicking (`run_callbacks` returns `some`), and the
slot again holds `some` model afterwards: every critical section that
takes the model out restores it before releasing the lock. -/
theorem c9_model_slot_never_none (render : M → List S → M × List S)
    (applyU : U → M → M) (conv : S → O) (eq : S) (lc : Nat)
    (ivs : List (Invocation U)) (st : CallbackState M S U) (m : M)
    (hm : st.slot = some m) :
    ∃ (fin : CallbackState M S U) (outs : List (List O)) (trs : List (List S))
      (m2 : M),
      run_callbacks render applyU conv eq lc st ivs = some (fin, outs, trs) ∧
        fin.slot = some m2 :=
  run_callbacks_slot_some render applyU conv eq lc ivs st m hm

/-- C9 witness at concrete inputs: a two-invocation run with a failing
render lock in the second invocation. -/
theorem c9_model_slot_never_none_witness :
    (⟨[], some (), Requester.new 1 1 0⟩ : CallbackState Unit Int Unit).slot =
      some () ∧
    ∃ (fin : CallbackState Unit Int Unit) (outs : List (List Int))
      (trs : List (List Int)) (m2 : Unit),
      run_callbacks demoRender demoApply (id : Int → Int) 0 1
          ⟨[], some (), Requester.new 1 1 0⟩
          [⟨[], [], true, true, true, 1⟩, ⟨[()], [()], false, false, true, 2⟩] =
        some (fin, outs, trs) ∧
        fin.slot = some m2 :=
  ⟨rfl, c9_model_slot_never_none demoRender demoApply id 0 1
    [⟨[], [], true, true, true, 1⟩, ⟨[()], [()], false, false, true, 2⟩]
    ⟨[], some (), Requester.new 1 1 0⟩ () rfl⟩

theorem proc_output_chunk (render : M → List S → M × List S) (applyU : U → M → M)
    (conv : S → O) (eq : S) (lc : Nat) (m : M) (req : Requester S) (h : Nat) :
    proc_output render applyU conv eq lc ⟨([] : List U), some m, req⟩
        (chunkInvocation h) =
      some ⟨⟨[], some (Requester.fill_buffer render eq lc req m h).model,
        (Requester.fill_buffer render eq lc req m h).req⟩,
        ((Requester.fill_buffer render eq lc req m h).out ++
          List.replicate (h - (Requester.fill_buffer render eq lc req m h).out.length)
            eq).map conv,
        [], [], (Requester.fill_buffer render eq lc req m h).renders⟩ := by
  have hmain := proc_output_locks_ok render applyU conv eq lc ([] : List U) m req [] [] h
  simpa [chunkInvocation, applyUpdates] using hmain

theorem run_chunks_spec (render : M → List S → M × List S) (applyU : U → M → M)
    (conv : S → O) (eq : S) (lc : Nat)
    (hlp : ∀ (m : M) (b : List S), ((render m b).2).length = b.length)
    (hlc : 0 < lc) :
    ∀ (hs : List Nat) (r : Requester S) (m : M),
      r.buffer.length = lc → r.cursor ≤ lc → 0 < r.cursor →
      ∃ (fin : CallbackState M S U) (outs : List (List O)) (trs : List (List S))
        (sj : List S),
        run_callbacks render applyU conv eq lc ⟨[], some m, r⟩
          (hs.map chunkInvocation) = some (fin, outs, trs) ∧
        fin.pending = [] ∧
        fin.slot = some (renderChain render eq lc m trs.length).1 ∧
        fin.req.buffer.length = lc ∧ fin.req.cursor ≤ lc ∧ 0 < fin.req.cursor ∧
        trs = (renderChain render eq lc m trs.length).2 ∧
        outs.map List.length = hs ∧
        outs.flatten = sj.map conv ∧
        r.buffer.drop r.cursor ++ trs.flatten =
          sj ++ fin.req.buffer.drop fin.req.cursor := by
  intro hs
  induction hs with
  | nil =>
    intro r m hlen hcur hpos
    exact ⟨⟨[], some m, r⟩, [], [], [], rfl, rfl, rfl, hlen, hcur, hpos, rfl, rfl, rfl,
      by simp⟩
  | cons h hs ih =>
    intro r m hlen hcur hpos
    obtain ⟨hb1, hb2, hb3, hb4, hb5, hb6, hb7⟩ :=
      fill_buffer_spec render eq lc hlp hlc h r m
        (Requester.fill_buffer render eq lc r m h) hlen hcur rfl
    set FB := Requester.fill_buffer render eq lc r m h with hFB
    have hcpos : 0 < FB.req.cursor := by
      by_cases hh : h = 0
      · have := hb7 hh
        rw [this]
        exact hpos
      · exact hb6 (Nat.pos_of_ne_zero hh)
    obtain ⟨fin, outs, trs, sj, hrun, hpend, hslot, hl1, hl2, hl3, htrs, houts,
      hoflat, hcons⟩ := ih FB.req FB.model hb1 hb2 hcpos
    have hpad : FB.out ++ List.replicate (h - FB.out.length) eq = FB.out := by
      rw [hb3]
      simp
    refine ⟨fin, (FB.out.map conv) :: outs, FB.renders ++ trs, FB.out ++ sj, ?_,
      hpend, ?_, hl1, hl2, hl3, ?_, ?_, ?_, ?_⟩
    · show run_callbacks render applyU conv eq lc ⟨[], some m, r⟩
        (chunkInvocation h :: hs.map chunkInvocation) = _
      rw [run_callbacks, proc_output_chunk, ← hFB, hpad]
      simp only [hrun]
    · rw [List.length_append, renderChain_add, hb5]
      exact hslot
    · rw [List.length_append, renderChain_add, hb5]
      show FB.renders ++ trs = FB.renders ++ (renderChain render eq lc FB.model trs.length).2
      rw [← htrs]
    · simp only [List.map_cons, List.length_map, hb3, houts]
    · simp only [List.flatten_cons, hoflat, List.map_append]
    · calc r.buffer.drop r.cursor ++ (FB.renders ++ trs).flatten
          = (r.buffer.drop r.cursor ++ FB.renders.flatten) ++ trs.flatten := by
            rw [List.flatten_append, List.append_assoc]
        _ = (FB.out ++ FB.req.buffer.drop FB.req.cursor) ++ trs.flatten := by
            rw [hb4]
        _ = FB.out ++ (FB.req.buffer.drop FB.req.cursor ++ trs.flatten) := by
            rw [List.append_assoc]
        _ = FB.out ++ (sj ++ fin.req.buffer.drop fin.req.cursor) := by rw [hcons]
        _ = (FB.out ++ sj) ++ fin.req.buffer.drop fin.req.cursor := by
            rw [List.append_assoc]

theorem ceil_count (lc k s : Nat) (hlc : 0 < lc) (h1 : s ≤ k * lc)
    (h2 : k * lc < s + lc) : k = (s + lc - 1) / lc := by
  have hmul : (k + 1) * lc = k * lc + lc := by ring
  have hle : k * lc ≤ s + lc - 1 := by omega
  have hlt : s + lc - 1 < (k + 1) * lc := by omega
  exact (Nat.div_eq_of_lt_le hle hlt).symm

/-- C1: For every sequence of hardware callback buffer sizes, starting
from the requester and state that `Builder::build` creates
(`Requester::new(frames_per_buffer, num_channels)`, model slot
`Some(model)`, empty pending buffer), the run of the processing closure
over those chunks succeeds and: every logical buffer handed to the user
render function holds exactly `frames_per_buffer * num_channels`
samples; every hardware buffer is filled to exactly its requested
length; the render trace is exactly the first
`ceil(sum / (frames_per_buffer * num_channels))` links of the render
chain from the initial model — a function of the total size only, so
the split into hardware chunks is invisible; and the concatenation of
the hardware outputs is precisely the converted prefix of the
concatenated render outputs — no sample dropped, duplicated or
reordered. -/
theorem c1_rebuffering_correct (render : M → List S → M × List S)
    (applyU : U → M → M) (conv : S → O) (eq : S) (fpb nc : Nat) (m : M)
    (hs : List Nat)
    (hlp : ∀ (m : M) (b : List S), ((render m b).2).length = b.length)
    (hfpb : 0 < fpb) (hnc : 0 < nc) :
    ∃ (fin : CallbackState M S U) (outs : List (List O)) (trs : List (List S)),
      run_callbacks render applyU conv eq (fpb * nc)
        ⟨[], some m, Requester.new fpb nc eq⟩ (hs.map chunkInvocation) =
        some (fin, outs, trs) ∧
      (∀ b ∈ trs, b.length = fpb * nc) ∧
      outs.map List.length = hs ∧
      trs = (renderChain render eq (fpb * nc) m
        ((hs.sum + fpb * nc - 1) / (fpb * nc))).2 ∧
      outs.flatten = (trs.flatten.map conv).take hs.sum := by
  have hlc : 0 < fpb * nc := Nat.mul_pos hfpb hnc
  have hnew_len : (Requester.new fpb nc eq : Requester S).buffer.length = fpb * nc := by
    simp [Requester.new]
  have hnew_cur : (Requester.new fpb nc eq : Requester S).cursor ≤ fpb * nc :=
    Nat.le_refl _
  have hnew_pos : 0 < (Requester.new fpb nc eq : Requester S).cursor := hlc
  obtain ⟨fin, outs, trs, sj, hrun, hpend, hslot, hl1, hl2, hl3, htrs, houts,
    hoflat, hcons⟩ :=
    run_chunks_spec render applyU conv eq (fpb * nc) hlp hlc hs
      (Requester.new fpb nc eq) m hnew_len hnew_cur hnew_pos
  have hdrop : (Requester.new fpb nc eq : Requester S).buffer.drop
      (Requester.new fpb nc eq : Requester S).cursor = [] :=
    List.drop_eq_nil_of_le (Nat.le_of_eq hnew_len)
  have hcons2 : trs.flatten = sj ++ fin.req.buffer.drop fin.req.cursor := by
    rw [hdrop] at hcons
    simpa using hcons
  have hmemlen : ∀ b ∈ trs, b.length = fpb * nc := by
    intro b hb
    rw [htrs] at hb
    exact renderChain_mem_length render eq (fpb * nc) hlp trs.length m b hb
  have hsjlen : sj.length = hs.sum := by
    have h1 : outs.flatten.length = (outs.map List.length).sum :=
      List.length_flatten _
    rw [hoflat, houts] at h1
    simpa using h1
  have hflatlen : trs.flatten.length = trs.length * (fpb * nc) :=
    flatten_length_const (fpb * nc) trs hmemlen
  have hlencons := congrArg List.length hcons2
  rw [hflatlen, List.length_append, hsjlen, List.length_drop, hl1] at hlencons
  have hk : trs.length = (hs.sum + fpb * nc - 1) / (fpb * nc) :=
    ceil_count (fpb * nc) trs.length hs.sum hlc (by omega) (by omega)
  refine ⟨fin, outs, trs, hrun, hmemlen, houts, ?_, ?_⟩
  · rw [← hk]
    exact htrs
  · have htake : trs.flatten.take hs.sum = sj := by
      rw [hcons2]
      exact List.take_left' hsjlen
    rw [← List.map_take, htake, hoflat]

/-- C1, witness at concrete inputs: two frames per buffer, one channel,
hardware chunks of 3 and 2 samples. -/
theorem c1_rebuffering_correct_witness :
    (∀ (m : Nat) (b : List Int), ((wRender m b).2).length = b.length) ∧
    0 < 2 ∧ 0 < 1 ∧
    ∃ (fin : CallbackState Nat Int Unit) (outs : List (List Int))
      (trs : List (List Int)),
      run_callbacks wRender (fun (_ : Unit) m => m) (id : Int → Int) 0 (2 * 1)
        ⟨[], some 0, Requester.new 2 1 0⟩ ([3, 2].map chunkInvocation) =
        some (fin, outs, trs) ∧
      (∀ b ∈ trs, b.length = 2 * 1) ∧
      outs.map List.length = [3, 2] ∧
      trs = (renderChain wRender 0 (2 * 1) 0
        (([3, 2].sum + 2 * 1 - 1) / (2 * 1))).2 ∧
      outs.flatten = (trs.flatten.map (id : Int → Int)).take 
        ([3, 2] : List Nat).sum :=
  ⟨fun m b => by simp [wRender], by decide, by decide,
    c1_rebuffering_correct wRender (fun (_ : Unit) m => m) id 0 2 1 0 [3, 2]
      (fun m b => by simp [wRender]) (by decide) (by decide)⟩

/-- C5, witness at concrete inputs: an unset device and no system
default output device yield the `DefaultDevice` error with no
registration effects. -/
theorem c5_default_device_error_witness :
    build Unit () ⟨none, none, none, none⟩ SampleFormat.F32 none (Except.ok 0) =
      (Except.error BuildError.DefaultDevice, ⟨[], []⟩) :=
  (c5_default_device_error Unit () ⟨none, none, none, none⟩ SampleFormat.F32 none
    (Except.ok 0)).1 rfl rfl

/-- C6, witness at concrete inputs: an explicitly pinned device with no
default format and an empty supported list. -/
theorem c6_format_unsupported_iff_witness :
    resolve_device ⟨none, none, none, some ⟨none, []⟩⟩ none = some ⟨none, []⟩ ∧
    ((build Unit () ⟨none, none, none, some ⟨none, []⟩⟩ SampleFormat.F32 none
        (Except.ok 0)).1 = Except.error BuildError.FormatUnsupported ↔
      ((∀ f, (⟨none, []⟩ : Device).default_output_format = some f →
          ¬ format_satisfies (none : Option Nat) SampleFormat.F32 f = true) ∧
        ∀ f ∈ (⟨none, []⟩ : Device).supported_output_formats,
          ¬ supported_satisfies (none : Option Nat) SampleFormat.F32 f = true)) :=
  ⟨rfl, c6_format_unsupported_iff Unit () ⟨none, none, none, some ⟨none, []⟩⟩
    SampleFormat.F32 none (Except.ok 0) ⟨none, []⟩ rfl⟩

/-- C7, witness at concrete inputs: a build that fails with
`DefaultDevice` has an empty effect log. -/
theorem c7_failed_build_leaks_nothing_witness :
    (build Unit () ⟨none, none, none, none⟩ SampleFormat.F32 none
      (Except.ok 0)).2.registered = [] ∧
    (build Unit () ⟨none, none, none, none⟩ SampleFormat.F32 none
      (Except.ok 0)).2.process_fns_sent = [] :=
  c7_failed_build_leaks_nothing Unit () ⟨none, none, none, none⟩ SampleFormat.F32
    none (Except.ok 0) BuildError.DefaultDevice rfl

end NannouAudio
